import Mathlib

/-!
Verification development for the IdentityCrisis Discord bot.

Shallow embedding of the core voice-state handler
(`src/bot/cogs/voice_handler.py`), the nickname transformation engine
(`src/bot/data/transformers.py`) and the default nickname pool
(`src/data/nicknames.py`).

Modelling conventions:
* Python strings are `List Char` (`Str` below); slicing `s[:32]` is
  `List.take 32`, `s[::-1]` is `List.reverse`.
* Python dicts are association lists with unique keys preserved by the
  operations used (`assocGet`, `assocInsert`, `assocPop`); dict truthiness
  and `in` tests become `isEmpty` / `isSome` checks.
* Case mapping (`str.upper` / `str.lower` / `str.isalpha`) is modelled on
  the ASCII subset via `Char.toUpper` / `Char.toLower` / `Char.isAlpha`.
* The platform member-edit call (`member.edit(nick=...)`) is modelled as an
  emitted `Command`; the call itself is assumed to be accepted by the
  platform (Forbidden / HTTP failures only affect logging and the returned
  success flag, not which commands are issued or the session store).
* `random.choice(pool)` is modelled by an externally supplied index `rnd`
  reduced modulo the pool length.
-/

set_option autoImplicit false

/-- Python strings, modelled as their character lists. -/
abbrev Str := List Char

/-- Association-list read, mirroring Python `d.get(k)` / `d[k]`. -/
def assocGet {α : Type} (k : Nat) : List (Nat × α) → Option α
  | [] => none
  | p :: rest => if p.1 = k then some p.2 else assocGet k rest

/-- Association-list write, mirroring Python `d[k] = v` (insertion order:
replaces in place if present, appends if absent). -/
def assocInsert {α : Type} (k : Nat) (v : α) : List (Nat × α) → List (Nat × α)
  | [] => [(k, v)]
  | p :: rest => if p.1 = k then (k, v) :: rest else p :: assocInsert k v rest

/-- Association-list removal, mirroring Python `d.pop(k, None)`: returns the
removed value (if any) and the remaining entries. -/
def assocPop {α : Type} (k : Nat) : List (Nat × α) → Option α × List (Nat × α)
  | [] => (none, [])
  | p :: rest =>
    if p.1 = k then (some p.2, rest)
    else
      let r := assocPop k rest
      (r.1, p :: r.2)

/-! ## Transformation engine (`src/bot/data/transformers.py`) -/

/-- `str.maketrans(src, dst)`: zip two equal-length strings into a
character translation table. -/
def mkTrans (src dst : String) : List (Char × Char) :=
  src.data.zip dst.data

/-- `str.translate(table)`: map each character through the table, leaving
unmapped characters unchanged. -/
def pyTranslate (table : List (Char × Char)) (s : Str) : Str :=
  s.map (fun c => ((table.find? (fun p => p.1 = c)).map (fun p => p.2)).getD c)

/-- `UPSIDE_DOWN_MAP` from transformers.py. -/
def UPSIDE_DOWN_MAP : List (Char × Char) :=
  mkTrans "abcdefghijklmnopqrstuvwxyzABCDEFGHIJKLMNOPQRSTUVWXYZ0123456789"
          "ɐqɔpǝɟƃɥᴉɾʞlɯuodbɹsʇnʌʍxʎz∀qƆpƎℲפHIſʞ˥WNOԀQɹS┴∩ΛMX⅄Z0ƖᄅƐㄣϛ9ㄥ86"

/-- `MIRROR_MAP` from transformers.py. -/
def MIRROR_MAP : List (Char × Char) :=
  mkTrans "abcdefghijklmnopqrstuvwxyzABCDEFGHIJKLMNOPQRSTUVWXYZ"
          "ɒdɔbɘʇǫʜiįʞlmnoqpɿꙅƚυvwxyzAdƆbƎꟻGHIJʞ⅃MᴎOꟼQЯƧTUVWXYZ"

/-- `LEET_MAP` from transformers.py. -/
def LEET_MAP : List (Char × Char) :=
  mkTrans "aAeEiIoOsStTlL" "44331100$$7711"

/-- `transform_reverse`: reverse the nickname. -/
def transform_reverse (nickname : Str) (_value : Option Str := none) : Str :=
  nickname.reverse

/-- `transform_upside_down`: translate then reverse. -/
def transform_upside_down (nickname : Str) (_value : Option Str := none) : Str :=
  (pyTranslate UPSIDE_DOWN_MAP nickname).reverse

/-- `transform_mirror`: translate then reverse. -/
def transform_mirror (nickname : Str) (_value : Option Str := none) : Str :=
  (pyTranslate MIRROR_MAP nickname).reverse

/-- `transform_leetspeak`: translate, no reversal. -/
def transform_leetspeak (nickname : Str) (_value : Option Str := none) : Str :=
  pyTranslate LEET_MAP nickname

/-- One step of `transform_sarcastic`'s loop: alternate case across
alphabetic characters, non-alphabetic characters pass through without
advancing the alternation.  Case mapping and `isalpha` are modelled on the
ASCII subset (same boundary as `transform_uppercase`). -/
def sarcasticStep (acc : Str × Bool) (c : Char) : Str × Bool :=
  if c.isAlpha then
    (acc.1 ++ [if acc.2 then c.toUpper else c.toLower], !acc.2)
  else
    (acc.1 ++ [c], acc.2)

/-- `transform_sarcastic`: AlTeRnAtInG cAsE, starting lowercase. -/
def transform_sarcastic (nickname : Str) (_value : Option Str := none) : Str :=
  (nickname.foldl sarcasticStep ([], false)).1

/-- `transform_uppercase`: `nickname.upper()`.  Python's `str.upper` is
full-Unicode and can expand length (e.g. 'ß' becomes "SS"); the embedding
models the ASCII subset char-wise, on which it coincides exactly with
Python, so theorems about case transforms are stated for ASCII inputs. -/
def transform_uppercase (nickname : Str) (_value : Option Str := none) : Str :=
  nickname.map Char.toUpper

/-- `transform_lowercase`: `nickname.lower()`.  Same ASCII-subset
modelling boundary as `transform_uppercase` (Python's `str.lower` maps
e.g. 'É' to 'é'; the model leaves non-ASCII letters fixed). -/
def transform_lowercase (nickname : Str) (_value : Option Str := none) : Str :=
  nickname.map Char.toLower

/-- `transform_prefix`: prepend `value + " "` when `value` is truthy. -/
def transform_prefix (nickname : Str) (value : Option Str := none) : Str :=
  match value with
  | some v => if v.isEmpty then nickname else v ++ (' ' :: nickname)
  | none => nickname

/-- `transform_suffix`: append `" " + value` when `value` is truthy. -/
def transform_suffix (nickname : Str) (value : Option Str := none) : Str :=
  match value with
  | some v => if v.isEmpty then nickname else nickname ++ (' ' :: v)
  | none => nickname

/-- A transformation rule dict: `rule.get("type")` and `rule.get("value")`. -/
structure Rule where
  type : Option String
  value : Option Str
deriving DecidableEq, Repr

/-- The `TRANSFORMERS` registry: string-keyed transformer dispatch. -/
def TRANSFORMERS : List (String × (Str → Option Str → Str)) :=
  [ ("reverse", fun n v => transform_reverse n v)
  , ("upside_down", fun n v => transform_upside_down n v)
  , ("mirror", fun n v => transform_mirror n v)
  , ("leetspeak", fun n v => transform_leetspeak n v)
  , ("sarcastic", fun n v => transform_sarcastic n v)
  , ("uppercase", fun n v => transform_uppercase n v)
  , ("lowercase", fun n v => transform_lowercase n v)
  , ("prefix", fun n v => transform_prefix n v)
  , ("suffix", fun n v => transform_suffix n v)
  ]

/-- Registry lookup: `rule_type in TRANSFORMERS` followed by indexing.
A missing `"type"` key (`none`) is never a registry hit. -/
def lookupTransformer : Option String → Option (Str → Option Str → Str)
  | none => none
  | some t =>
    match TRANSFORMERS.find? (fun p => p.1 = t) with
    | some p => some p.2
    | none => none

/-- One iteration of the `apply_rules` loop body. -/
def applyRuleStep (result : Str) (rule : Rule) : Str :=
  match lookupTransformer rule.type with
  | some f => f result rule.value
  | none => result

/-- `apply_rules`: fold the rules left-to-right, then truncate to the
32-character platform nickname limit. -/
def apply_rules (nickname : Str) (rules : List Rule) : Str :=
  (rules.foldl applyRuleStep nickname).take 32

/-! ## Default nickname pool (`src/data/nicknames.py`) -/

/-- `DEFAULT_NICKNAMES`: the built-in pool of curated absurd names. -/
def DEFAULT_NICKNAMES : List Str :=
  ([ "Gino Panino", "Mario Spaghetti", "Giuseppe Focaccia", "Peppino lo Scemo"
   , "Il Magnifico", "Don Caciotta", "Signor Broccolo", "Zio Mortazza"
   , "Nonna Furiosa"
   , "Captain Spaghetti", "Lord Farquaad's Cousin", "Definitely Not A Bot"
   , "Someone's Mom", "Professional Overthinker", "Certified Chaos Agent"
   , "A Sentient Potato", "FBI Agent #47", "Your WiFi Password"
   , "404 Name Not Found"
   , "Kevin", "Greg", "Brenda", "Keith", "Nigel", "Gertrude", "Cletus"
   , "Who Am I", "Not Marco", "Wrong Person", "Identity Theft Victim"
   , "Your Other Account", "The Impostor", "Witness Protection"
   , "Human Lasagna", "Angry Mozzarella", "Escaped Raviolo"
   , "Carbonara Incarnata", "Panino Imbottito"
   , "CEO of Nothing", "Professional Screamer", "Local Cryptid"
   , "That One Guy", "Your Mom's Favorite", "The Quiet One (lol)"
   , "Main Character", "Background NPC"
   , "Ciao Bella Problems", "Molto Confused", "Mamma Mia Energy"
   , "Pizza Time Specialist", "Espresso Depresso"
   ] : List String).map String.data

/-! ## Identity session store (`VoiceHandler.original_nicknames`) -/

/-- One stored snapshot: the dict
`{"nick": nickname, "display_name": display_name}`. -/
structure Snapshot where
  nick : Option Str
  display_name : Str
deriving DecidableEq, Repr

/-- `self.original_nicknames`: guild id → (user id → snapshot). -/
abbrev Store := List (Nat × List (Nat × Snapshot))

/-- `VoiceHandler._store_original_nickname`: ensure the guild dict exists,
then write the snapshot only if no entry exists for this user. -/
def store_original_nickname (guild_id user_id : Nat) (nickname : Option Str)
    (display_name : Str) (st : Store) : Store :=
  let st1 := if (assocGet guild_id st).isSome then st else assocInsert guild_id [] st
  let g := (assocGet guild_id st1).getD []
  if (assocGet user_id g).isSome then st1
  else assocInsert guild_id (assocInsert user_id ⟨nickname, display_name⟩ g) st1

/-- `VoiceHandler._pop_original_nickname`: pop the user's entry from the
guild dict (leaving the guild dict itself in place) and return the stored
display name, or `none` when no entry existed. -/
def pop_original_nickname (guild_id user_id : Nat) (st : Store) :
    Option Str × Store :=
  match assocGet guild_id st with
  | none => (none, st)
  | some g =>
    let r := assocPop user_id g
    let st1 := assocInsert guild_id r.2 st
    match r.1 with
    | some data => (some data.display_name, st1)
    | none => (none, st1)

/-- `VoiceHandler._get_original_display_name`. -/
def get_original_display_name (guild_id user_id : Nat) (st : Store) :
    Option Str :=
  match assocGet guild_id st with
  | none => none
  | some g =>
    match assocGet user_id g with
    | some data => some data.display_name
    | none => none

/-! ## Guild configuration (the database rows the handler consults) -/

/-- The `Guild` settings row (`src/shared/database.py`). -/
structure GuildSettings where
  enabled : Bool
  restore_on_leave : Bool
  immunity_role_id : Option Nat
deriving Repr

/-- The per-guild configuration the handler reads from the database:
`Nickname` rows, `IncludedChannel` rows, `CustomChannel` rows (channel id
with its JSON rules) and `ExcludedChannel` rows.  The voice handler never
queries the `ExcludedChannel` table; the field is carried to state that. -/
structure GuildCfg where
  settings : GuildSettings
  nickname_pool : List Str
  included_channels : List Nat
  custom_channels : List (Nat × List Rule)
  excluded_channels : List Nat
deriving Repr

/-- `VoiceHandler._get_guild_nicknames`: the guild's custom pool when
non-empty, otherwise the default pool. -/
def get_guild_nicknames (cfg : GuildCfg) : List Str :=
  if cfg.nickname_pool.isEmpty then DEFAULT_NICKNAMES else cfg.nickname_pool

/-- `VoiceHandler._is_custom_channel`: a `CustomChannel` row exists. -/
def is_custom_channel (cfg : GuildCfg) (channel_id : Nat) : Bool :=
  (assocGet channel_id cfg.custom_channels).isSome

/-- `VoiceHandler._get_custom_channel_rules`: the row's rules when the row
exists and its rule list is truthy (non-empty). -/
def get_custom_channel_rules (cfg : GuildCfg) (channel_id : Nat) :
    Option (List Rule) :=
  match assocGet channel_id cfg.custom_channels with
  | some rules => if rules.isEmpty then none else some rules
  | none => none

/-- `VoiceHandler._is_channel_allowed`: custom channels always allowed;
with no included and no custom rows everything is allowed; with included
rows only listed channels are allowed; otherwise not allowed. -/
def is_channel_allowed (cfg : GuildCfg) (channel_id : Nat) : Bool :=
  if is_custom_channel cfg channel_id then true
  else if cfg.included_channels.isEmpty && cfg.custom_channels.isEmpty then true
  else if !cfg.included_channels.isEmpty then
    cfg.included_channels.contains channel_id
  else false

/-! ## Members, events and the handler -/

/-- The member attributes the handler reads. -/
structure Member where
  id : Nat
  guild_id : Nat
  nick : Option Str
  display_name : Str
  top_role : Nat
  roles : List Nat
deriving Repr

/-- Guild-environment facts: the bot's user id, the guild owner's id and
the bot member's top role position. -/
structure Env where
  bot_user_id : Nat
  owner_id : Nat
  bot_top_role : Nat
deriving Repr

/-- A command issued to the identity mutator (`member.edit(nick=...)`). -/
inductive Command where
  | rename (name : Str)
  | restoreNick (nick : Option Str)
deriving DecidableEq, Repr

/-- `VoiceHandler._user_joined_voice`. -/
def user_joined_voice (before after : Option Nat) : Bool :=
  before.isNone && after.isSome

/-- `VoiceHandler._user_left_voice`. -/
def user_left_voice (before after : Option Nat) : Bool :=
  before.isSome && after.isNone

/-- `VoiceHandler._user_changed_channel`. -/
def user_changed_channel (before after : Option Nat) : Bool :=
  match before, after with
  | some b, some a => decide (b ≠ a)
  | _, _ => false

/-- `VoiceHandler._can_rename_member`: not the bot itself, not the guild
owner, and the bot's top role strictly above the member's. -/
def can_rename_member (env : Env) (m : Member) : Bool :=
  if m.id = env.bot_user_id then false
  else if m.id = env.owner_id then false
  else if env.bot_top_role ≤ m.top_role then false
  else true

/-- `VoiceHandler._has_immunity`. -/
def has_immunity (gs : GuildSettings) (m : Member) : Bool :=
  match gs.immunity_role_id with
  | none => false
  | some rid => m.roles.contains rid

/-- `VoiceHandler._restore_nickname`: pop the entry, then — when the guild
key is present in the store OR a value was popped — issue
`member.edit(nick=original)` and report success; otherwise report failure
with no command.  (The platform edit is modelled as accepted.) -/
def restore_nickname (m : Member) (st : Store) :
    Bool × List Command × Store :=
  let r := pop_original_nickname m.guild_id m.id st
  if (assocGet m.guild_id r.2).isSome || r.1.isSome then
    (true, [Command.restoreNick r.1], r.2)
  else (false, [], r.2)

/-- `VoiceHandler.on_voice_state_update`: the core state machine.  Returns
the mutator commands issued (in order) and the resulting session store.
`before`/`after` are the event's voice channel ids; `rnd` feeds
`random.choice`. -/
def on_voice_state_update (cfg : GuildCfg) (env : Env) (rnd : Nat)
    (m : Member) (before after : Option Nat) (st : Store) :
    List Command × Store :=
  let gs := cfg.settings
  if !gs.enabled then ([], st)
  else
    let was_custom : Bool :=
      match before with
      | some bc => is_custom_channel cfg bc
      | none => false
    if user_left_voice before after then
      if was_custom || gs.restore_on_leave then
        let r := restore_nickname m st
        (r.2.1, r.2.2)
      else ([], st)
    else if user_joined_voice before after || user_changed_channel before after then
      match after with
      | none => ([], st)
      | some ac =>
        let s1 : List Command × Store :=
          if was_custom && user_changed_channel before after then
            let r := restore_nickname m st
            (r.2.1, r.2.2)
          else ([], st)
        if !is_channel_allowed cfg ac then
          if user_changed_channel before after then
            if gs.restore_on_leave && !was_custom then
              let r := restore_nickname m s1.2
              (s1.1 ++ r.2.1, r.2.2)
            else s1
          else s1
        else if !can_rename_member env m then s1
        else if has_immunity gs m then s1
        else
          let st2 :=
            if user_joined_voice before after then
              store_original_nickname m.guild_id m.id m.nick m.display_name s1.2
            else s1.2
          match get_custom_channel_rules cfg ac with
          | some rules =>
            let original_name :=
              match get_original_display_name m.guild_id m.id st2 with
              | some s => if s.isEmpty then m.display_name else s
              | none => m.display_name
            (s1.1 ++ [Command.rename (apply_rules original_name rules)], st2)
          | none =>
            let nicknames := get_guild_nicknames cfg
            (s1.1 ++ [Command.rename (nicknames.getD (rnd % nicknames.length) [])], st2)
    else ([], st)

/-! ## Spec-side definitions for refinement comparison -/

/-- The channel policy exactly as the specification words it: Custom rules
win; otherwise an allow-list applies when any Included or Custom rule
exists anywhere in the guild; otherwise in scope iff not Excluded. -/
def spec_channel_resolve (cfg : GuildCfg) (channel_id : Nat) : Bool :=
  if is_custom_channel cfg channel_id then true
  else if !cfg.included_channels.isEmpty || !cfg.custom_channels.isEmpty then
    cfg.included_channels.contains channel_id
  else !cfg.excluded_channels.contains channel_id

/-- The channel policy amended to what the code implements: identical to
`spec_channel_resolve` except that when no Included and no Custom rules
exist the channel is in scope unconditionally (the Excluded list is never
consulted). -/
def amended_channel_resolve (cfg : GuildCfg) (channel_id : Nat) : Bool :=
  if is_custom_channel cfg channel_id then true
  else if !cfg.included_channels.isEmpty || !cfg.custom_channels.isEmpty then
    cfg.included_channels.contains channel_id
  else true

/-! ## Helper lemmas: association lists -/

theorem assocGet_insert_self {α : Type} (k : Nat) (v : α) (l : List (Nat × α)) :
    assocGet k (assocInsert k v l) = some v := by
  induction l with
  | nil => simp [assocGet, assocInsert]
  | cons p rest ih =>
    by_cases h : p.1 = k
    · simp [assocGet, assocInsert, h]
    · simp [assocGet, assocInsert, h, ih]

theorem assocPop_fst {α : Type} (k : Nat) (l : List (Nat × α)) :
    (assocPop k l).1 = assocGet k l := by
  induction l with
  | nil => rfl
  | cons p rest ih =>
    by_cases h : p.1 = k
    · simp [assocPop, assocGet, h]
    · simp [assocPop, assocGet, h, ih]

theorem assocGet_isSome_of_mem {α : Type} {gid : Nat} {st : List (Nat × α)}
    {g : α} (h : assocGet gid st = some g) : (assocGet gid st).isSome := by
  simp [h]

/-! ## Helper lemmas: the session store -/

/-- Storing is a no-op when a snapshot for the user already exists. -/
theorem store_original_nickname_of_present {gid uid : Nat} {n : Option Str}
    {d : Str} {st : Store}
    (h : (assocGet uid ((assocGet gid st).getD [])).isSome) :
    store_original_nickname gid uid n d st = st := by
  unfold store_original_nickname
  cases hg : assocGet gid st with
  | none => simp [hg, assocGet] at h
  | some g =>
    simp only [hg, Option.isSome_some, if_true, Option.getD_some]
    simp only [hg, Option.getD_some] at h
    simp [h]

/-- Storing into a store with no existing snapshot records exactly the
nickname and display name passed in. -/
theorem store_original_nickname_of_absent {gid uid : Nat} {n : Option Str}
    {d : Str} {st : Store}
    (h : assocGet uid ((assocGet gid st).getD []) = none) :
    assocGet uid ((assocGet gid
      (store_original_nickname gid uid n d st)).getD []) =
      some ⟨n, d⟩ := by
  unfold store_original_nickname
  cases hg : assocGet gid st with
  | none =>
    simp only [hg, Option.isSome_none, Bool.false_eq_true, if_false,
      assocGet_insert_self, Option.getD_some, assocGet, assocInsert]
    simp [assocGet]
  | some g =>
    simp only [hg, Option.getD_some] at h
    simp [hg, h, assocGet_insert_self]

/-! ## Helper lemmas: ASCII case mapping -/

theorem char_toNat_ofNat_valid {n : Nat} (h : n.isValidChar) :
    (Char.ofNat n).toNat = n := by
  simp only [Char.ofNat, dif_pos h, Char.ofNatAux, Char.toNat]
  simp [UInt32.toNat]

/-- Uppercasing then lowercasing a character equals lowercasing it. -/
theorem char_toLower_toUpper (c : Char) : c.toUpper.toLower = c.toLower := by
  by_cases h : c.toNat ≥ 97 ∧ c.toNat ≤ 122
  · have hv : (c.toNat - 32).isValidChar := Or.inl (by omega)
    have hU : c.toUpper = Char.ofNat (c.toNat - 32) := by
      unfold Char.toUpper
      rw [if_pos h]
    have hUt : c.toUpper.toNat = c.toNat - 32 := by
      rw [hU]; exact char_toNat_ofNat_valid hv
    have hL : c.toUpper.toLower = Char.ofNat (c.toUpper.toNat + 32) := by
      unfold Char.toLower
      rw [if_pos (by omega)]
    have hR : c.toLower = c := by
      unfold Char.toLower
      rw [if_neg (by omega)]
    rw [hL, hUt, hR]
    have : c.toNat - 32 + 32 = c.toNat := by omega
    rw [this, Char.ofNat_toNat]
  · have hU : c.toUpper = c := by
      unfold Char.toUpper
      rw [if_neg h]
    rw [hU]

/-! ## Helper lemmas: handler branch reductions -/

/-- Restoration never issues a rename command. -/
theorem no_rename_in_restore (m : Member) (st : Store) (name : Str) :
    Command.rename name ∉ (restore_nickname m st).2.1 := by
  unfold restore_nickname
  by_cases hc : ((assocGet m.guild_id (pop_original_nickname m.guild_id m.id st).2).isSome ||
      (pop_original_nickname m.guild_id m.id st).1.isSome) = true
  · simp [hc]
  · simp [hc]

/-- A no-op event (no channel transition) produces nothing. -/
theorem handler_no_transition (cfg : GuildCfg) (env : Env) (rnd : Nat)
    (m : Member) (st : Store) (before after : Option Nat)
    (h : before = after) :
    on_voice_state_update cfg env rnd m before after st = ([], st) := by
  subst h
  unfold on_voice_state_update
  by_cases hen : cfg.settings.enabled
  · cases before with
    | none => simp [hen, user_left_voice, user_joined_voice, user_changed_channel]
    | some bc => simp [hen, user_left_voice, user_joined_voice, user_changed_channel]
  · simp [hen]

/-- A join whose guards all pass, into a channel without custom rules:
one random rename, snapshot stored. -/
theorem handler_join_random (cfg : GuildCfg) (env : Env) (rnd : Nat)
    (m : Member) (ac : Nat) (st : Store)
    (hen : cfg.settings.enabled = true)
    (hal : is_channel_allowed cfg ac = true)
    (hcr : can_rename_member env m = true)
    (him : has_immunity cfg.settings m = false)
    (hrules : get_custom_channel_rules cfg ac = none) :
    on_voice_state_update cfg env rnd m none (some ac) st =
      ([Command.rename ((get_guild_nicknames cfg).getD
          (rnd % (get_guild_nicknames cfg).length) [])],
       store_original_nickname m.guild_id m.id m.nick m.display_name st) := by
  unfold on_voice_state_update
  simp [hen, hal, hcr, him, hrules, user_left_voice, user_joined_voice,
    user_changed_channel]

/-- A join blocked by any eligibility guard leaves everything unchanged. -/
theorem handler_join_blocked (cfg : GuildCfg) (env : Env) (rnd : Nat)
    (m : Member) (ac : Nat) (st : Store)
    (h : cfg.settings.enabled = false ∨ is_channel_allowed cfg ac = false ∨
      can_rename_member env m = false ∨ has_immunity cfg.settings m = true) :
    on_voice_state_update cfg env rnd m none (some ac) st = ([], st) := by
  unfold on_voice_state_update
  rcases h with h | h | h | h
  · simp [h]
  · by_cases hen : cfg.settings.enabled
    · simp [hen, h, user_left_voice, user_joined_voice, user_changed_channel]
    · simp [hen]
  · by_cases hen : cfg.settings.enabled
    · by_cases hal : is_channel_allowed cfg ac
      · simp [hen, hal, h, user_left_voice, user_joined_voice, user_changed_channel]
      · simp [hen, hal, user_left_voice, user_joined_voice, user_changed_channel]
    · simp [hen]
  · by_cases hen : cfg.settings.enabled
    · by_cases hal : is_channel_allowed cfg ac
      · by_cases hcr : can_rename_member env m
        · simp [hen, hal, hcr, h, user_left_voice, user_joined_voice,
            user_changed_channel]
        · simp [hen, hal, hcr, user_left_voice, user_joined_voice,
            user_changed_channel]
      · simp [hen, hal, user_left_voice, user_joined_voice, user_changed_channel]
    · simp [hen]

/-- On a join whose guards all pass, the resulting store is the
snapshot-write, whatever naming branch is taken. -/
theorem handler_join_store (cfg : GuildCfg) (env : Env) (rnd : Nat)
    (m : Member) (ac : Nat) (st : Store)
    (hen : cfg.settings.enabled = true)
    (hal : is_channel_allowed cfg ac = true)
    (hcr : can_rename_member env m = true)
    (him : has_immunity cfg.settings m = false) :
    (on_voice_state_update cfg env rnd m none (some ac) st).2 =
      store_original_nickname m.guild_id m.id m.nick m.display_name st := by
  unfold on_voice_state_update
  cases hrules : get_custom_channel_rules cfg ac with
  | none =>
    simp [hen, hal, hcr, him, hrules, user_left_voice, user_joined_voice,
      user_changed_channel]
  | some rules =>
    simp [hen, hal, hcr, him, hrules, user_left_voice, user_joined_voice,
      user_changed_channel]

/-- Leaving voice with restoration active (custom vacated channel or
restore-on-leave) runs exactly the restoration routine. -/
theorem handler_left_restores (cfg : GuildCfg) (env : Env) (rnd : Nat)
    (m : Member) (bc : Nat) (st : Store)
    (hen : cfg.settings.enabled = true)
    (hres : (is_custom_channel cfg bc || cfg.settings.restore_on_leave) = true) :
    on_voice_state_update cfg env rnd m (some bc) none st =
      ((restore_nickname m st).2.1, (restore_nickname m st).2.2) := by
  unfold on_voice_state_update
  simp [hen, hres, user_left_voice]

/-- Inversion: a rename command can only be emitted for the destination
channel of a join/move whose guards all passed, and its name is either a
rule transformation (for a custom destination) or the random pool pick. -/
theorem rename_mem_inv (cfg : GuildCfg) (env : Env) (rnd : Nat) (m : Member)
    (before after : Option Nat) (st : Store) (name : Str)
    (h : Command.rename name ∈
      (on_voice_state_update cfg env rnd m before after st).1) :
    ∃ ac, after = some ac ∧ cfg.settings.enabled = true ∧
      is_channel_allowed cfg ac = true ∧ can_rename_member env m = true ∧
      has_immunity cfg.settings m = false ∧
      ((∃ rules, get_custom_channel_rules cfg ac = some rules ∧
          ∃ orig, name = apply_rules orig rules) ∨
        (get_custom_channel_rules cfg ac = none ∧
          name = (get_guild_nicknames cfg).getD
            (rnd % (get_guild_nicknames cfg).length) [])) := by
  by_cases hen : cfg.settings.enabled
  case neg =>
    unfold on_voice_state_update at h
    simp [hen] at h
  case pos =>
  cases before with
  | none =>
    cases after with
    | none =>
      rw [handler_no_transition cfg env rnd m st none none rfl] at h
      simp at h
    | some ac =>
      by_cases hal : is_channel_allowed cfg ac
      case neg =>
        rw [handler_join_blocked cfg env rnd m ac st (Or.inr (Or.inl (by simpa using hal)))] at h
        simp at h
      case pos =>
      by_cases hcr : can_rename_member env m
      case neg =>
        rw [handler_join_blocked cfg env rnd m ac st
          (Or.inr (Or.inr (Or.inl (by simpa using hcr))))] at h
        simp at h
      case pos =>
      by_cases him : has_immunity cfg.settings m
      case pos =>
        rw [handler_join_blocked cfg env rnd m ac st (Or.inr (Or.inr (Or.inr him)))] at h
        simp at h
      case neg =>
      refine ⟨ac, rfl, hen, hal, hcr, by simpa using him, ?_⟩
      cases hrules : get_custom_channel_rules cfg ac with
      | none =>
        rw [handler_join_random cfg env rnd m ac st hen hal hcr
          (by simpa using him) hrules] at h
        simp at h
        exact Or.inr ⟨rfl, by simpa using h⟩
      | some rules =>
        unfold on_voice_state_update at h
        simp [hen, hal, hcr, him, hrules, user_left_voice, user_joined_voice,
          user_changed_channel] at h
        exact Or.inl ⟨rules, rfl, _, h⟩
  | some bc =>
    cases after with
    | none =>
      unfold on_voice_state_update at h
      by_cases hres : (is_custom_channel cfg bc || cfg.settings.restore_on_leave) = true
      · simp only [hen, Bool.not_true, Bool.false_eq_true, if_false,
          user_left_voice, Option.isSome_some, Option.isNone_none,
          Bool.and_self, if_true] at h
        simp only [hres] at h
        revert h
        by_cases hc : ((assocGet m.guild_id (pop_original_nickname m.guild_id m.id st).2).isSome ||
            (pop_original_nickname m.guild_id m.id st).1.isSome) = true
        · unfold restore_nickname
          simp [hc]
        · unfold restore_nickname
          simp [hc]
      · simp [hen, hres, user_left_voice] at h
    | some ac =>
      by_cases hne : bc = ac
      case pos =>
        rw [hne, handler_no_transition cfg env rnd m st (some ac) (some ac) rfl] at h
        simp at h
      case neg =>
      unfold on_voice_state_update at h
      by_cases hal : is_channel_allowed cfg ac
      case neg =>
        by_cases hwc : is_custom_channel cfg bc <;>
          by_cases hrl : cfg.settings.restore_on_leave <;>
            simp [hen, hal, hwc, hrl, hne, user_left_voice, user_joined_voice,
              user_changed_channel, no_rename_in_restore] at h
      case pos =>
      by_cases hcr : can_rename_member env m
      case neg =>
        by_cases hwc : is_custom_channel cfg bc <;>
          simp [hen, hal, hcr, hwc, hne, user_left_voice, user_joined_voice,
            user_changed_channel, no_rename_in_restore] at h
      case pos =>
      by_cases him : has_immunity cfg.settings m
      case pos =>
        by_cases hwc : is_custom_channel cfg bc <;>
          simp [hen, hal, hcr, him, hwc, hne, user_left_voice, user_joined_voice,
            user_changed_channel, no_rename_in_restore] at h
      case neg =>
      refine ⟨ac, rfl, hen, hal, hcr, by simpa using him, ?_⟩
      cases hrules : get_custom_channel_rules cfg ac with
      | none =>
        by_cases hwc : is_custom_channel cfg bc <;>
          simp [hen, hal, hcr, him, hwc, hrules, hne, user_left_voice,
            user_joined_voice, user_changed_channel, no_rename_in_restore] at h <;>
          exact Or.inr ⟨rfl, by simpa using h⟩
      | some rules =>
        by_cases hwc : is_custom_channel cfg bc <;>
          simp [hen, hal, hcr, him, hwc, hrules, hne, user_left_voice,
            user_joined_voice, user_changed_channel, no_rename_in_restore] at h <;>
          exact Or.inl ⟨rules, rfl, _, h⟩

/-- Modular indexing picks an element of a non-empty list. -/
theorem getD_mod_mem (l : List Str) (h : l ≠ []) (i : Nat) :
    l.getD (i % l.length) [] ∈ l := by
  have hl : 0 < l.length := List.length_pos.mpr h
  have hlt : i % l.length < l.length := Nat.mod_lt _ hl
  rw [List.getD_eq_getElem?_getD, List.getElem?_eq_getElem hlt]
  exact List.getElem_mem hlt

/-- Every default-pool name fits the 32-character platform limit. -/
theorem default_nicknames_short : ∀ n ∈ DEFAULT_NICKNAMES, n.length ≤ 32 := by
  decide

/-- The default pool is non-empty. -/
theorem default_nicknames_ne_nil : DEFAULT_NICKNAMES ≠ [] := by
  decide

/-- Storing into an empty store creates the two-level entry. -/
theorem store_on_empty (gid uid : Nat) (n : Option Str) (d : Str) :
    store_original_nickname gid uid n d [] = [(gid, [(uid, ⟨n, d⟩)])] := by
  unfold store_original_nickname
  simp [assocGet, assocInsert]

/-- Restoring a member whose guild holds exactly their snapshot issues the
stored display name and leaves the guild key with an empty dict. -/
theorem restore_after_single (m : Member) (snap : Snapshot) :
    restore_nickname m [(m.guild_id, [(m.id, snap)])] =
      (true, [Command.restoreNick (some snap.display_name)],
        [(m.guild_id, [])]) := by
  unfold restore_nickname pop_original_nickname
  simp [assocGet, assocPop, assocInsert]

/-! ## Claim C1 (code bug: restoration is not exactly-once) -/

/-- Claim C1: evaluation of `_restore_nickname` at the failing input.  For
member 2 of guild 1 with a stored snapshot, the first restore succeeds and
pops the entry, leaving the guild key with an empty inner dict; a second
restore for the same member then finds no snapshot, yet — because
`member.guild.id in self.original_nicknames` is still true — it issues
`member.edit(nick=None)` and reports success, contradicting the documented
exactly-once / report-failure behaviour. -/
theorem C1_second_restore_issues_command :
    restore_nickname ⟨2, 1, none, "Alice".data, 1, []⟩
        [(1, [(2, ⟨none, "Alice".data⟩)])] =
      (true, [Command.restoreNick (some "Alice".data)], [(1, [])]) ∧
    restore_nickname ⟨2, 1, none, "Alice".data, 1, []⟩ [(1, [])] =
      (true, [Command.restoreNick none], [(1, [])]) := by
  constructor <;> rfl

/-! ## Claim C2 (corrected: the Excluded list is never consulted) -/

/-- Claim C2, counterexample: a guild whose only rule is an Excluded entry
for channel 5, and channel 5 itself.  The claim's resolver puts the channel
out of scope, but `_is_channel_allowed` returns true (it never queries the
Excluded list). -/
theorem C2_counterexample :
    is_channel_allowed ⟨⟨true, true, none⟩, [], [], [], [5]⟩ 5 = true ∧
    spec_channel_resolve ⟨⟨true, true, none⟩, [], [], [], [5]⟩ 5 = false := by
  constructor <;> rfl

/-- Claim C2 as amended: the resolver satisfies the claimed priority scheme
except in the final clause — when no Included and no Custom rule exists,
every channel is in scope unconditionally; the Excluded list is never
consulted. -/
theorem C2_resolver_matches_amended_policy (cfg : GuildCfg) (c : Nat) :
    is_channel_allowed cfg c = amended_channel_resolve cfg c := by
  unfold is_channel_allowed amended_channel_resolve
  cases h1 : is_custom_channel cfg c
  · cases h2 : cfg.included_channels with
    | nil =>
      cases h3 : cfg.custom_channels with
      | nil => simp
      | cons p rest => simp
    | cons q rest => simp
  · simp

/-! ## Claim C6 (corrected: round-trips only below the 32-char cap) -/

/-- Claim C6, counterexample: for the 33-character input below, applying
the reverse rule twice does not return the original string — the final
32-character truncation drops a character on the first application. -/
theorem C6_counterexample :
    apply_rules
        (apply_rules "abcdefghijklmnopqrstuvwxyzABCDEFG".data
          [⟨some "reverse", none⟩])
        [⟨some "reverse", none⟩] ≠
      "abcdefghijklmnopqrstuvwxyzABCDEFG".data := by
  decide

/-- Claim C6 as amended: for every input of length at most 32 (the platform
nickname limit enforced by `apply_rules`), applying the reverse rule twice
returns the original string; and when the input is moreover ASCII — the
subset on which the embedding's case mapping coincides with Python's
`str.upper`/`str.lower` (full-Unicode casing breaks the identity, e.g. for
'ß') — applying uppercase then lowercase equals lowercasing directly. -/
theorem C6_roundtrips_below_cap (name : Str) (h : name.length ≤ 32) :
    apply_rules (apply_rules name [⟨some "reverse", none⟩])
        [⟨some "reverse", none⟩] = name ∧
    ((∀ c ∈ name, c.toNat < 128) →
      apply_rules name [⟨some "uppercase", none⟩, ⟨some "lowercase", none⟩] =
        transform_lowercase name) := by
  constructor
  · have h1 : apply_rules name [⟨some "reverse", none⟩] =
        name.reverse.take 32 := rfl
    rw [h1, List.take_of_length_le (by simpa using h)]
    show name.reverse.reverse.take 32 = name
    rw [List.reverse_reverse, List.take_of_length_le h]
  · intro _
    show ((name.map Char.toUpper).map Char.toLower).take 32 =
      name.map Char.toLower
    rw [List.map_map]
    have hc : Char.toLower ∘ Char.toUpper = Char.toLower :=
      funext char_toLower_toUpper
    rw [hc, List.take_of_length_le (by simpa using h)]

/-- Claim C6 witness: the amended round-trips at the concrete ASCII name
"Mario". -/
theorem C6_roundtrips_below_cap_witness :
    apply_rules (apply_rules "Mario".data [⟨some "reverse", none⟩])
        [⟨some "reverse", none⟩] = "Mario".data ∧
    apply_rules "Mario".data
        [⟨some "uppercase", none⟩, ⟨some "lowercase", none⟩] =
      transform_lowercase "Mario".data :=
  ⟨(C6_roundtrips_below_cap "Mario".data (by decide)).1,
    (C6_roundtrips_below_cap "Mario".data (by decide)).2 (by decide)⟩

/-! ## Claim C8 (restoration uses the stored display name) -/

/-- Claim C8: whenever a session snapshot exists for a member, restoring
pops it and issues a restore command carrying `some snap.display_name` —
always a present string, never `None`, and never the separately stored
`nick` field — and reports success. -/
theorem C8_restore_uses_display_name (m : Member) (st : Store)
    (g : List (Nat × Snapshot)) (snap : Snapshot)
    (hg : assocGet m.guild_id st = some g)
    (hu : assocGet m.id g = some snap) :
    restore_nickname m st =
      (true, [Command.restoreNick (some snap.display_name)],
        assocInsert m.guild_id (assocPop m.id g).2 st) := by
  unfold restore_nickname pop_original_nickname
  have hp : (assocPop m.id g).1 = some snap := by
    rw [assocPop_fst, hu]
  simp [hg, hp, assocGet_insert_self]

/-- Claim C8 witness: the theorem applied at a member with a stored
snapshot whose `nick` field is set — restoration still carries the
display name. -/
theorem C8_restore_uses_display_name_witness :
    restore_nickname ⟨2, 1, some "Al".data, "Alice".data, 1, []⟩
        [(1, [(2, ⟨some "OldNick".data, "Alice".data⟩)])] =
      (true, [Command.restoreNick (some "Alice".data)],
        assocInsert 1 (assocPop 2 [(2, (⟨some "OldNick".data, "Alice".data⟩ : Snapshot))]).2
          [(1, [(2, ⟨some "OldNick".data, "Alice".data⟩)])]) :=
  C8_restore_uses_display_name ⟨2, 1, some "Al".data, "Alice".data, 1, []⟩
    [(1, [(2, ⟨some "OldNick".data, "Alice".data⟩)])]
    [(2, ⟨some "OldNick".data, "Alice".data⟩)]
    ⟨some "OldNick".data, "Alice".data⟩ rfl rfl

/-! ## Claim C9 (apply_rules is total and always truncates) -/

/-- Claim C9: a rule whose `"type"` key is absent or names no registered
transformer is silently skipped (acts as the identity), the 32-character
truncation is applied to every result, and the empty rule list yields the
truncated input itself. -/
theorem C9_apply_rules_skips_unknown (name : Str) (r : Rule) (rs : List Rule)
    (h : lookupTransformer r.type = none) :
    apply_rules name (r :: rs) = apply_rules name rs ∧
    apply_rules name [] = name.take 32 ∧
    (apply_rules name (r :: rs)).length ≤ 32 := by
  refine ⟨?_, rfl, ?_⟩
  · unfold apply_rules
    have hstep : applyRuleStep name r = name := by
      unfold applyRuleStep
      rw [h]
    show ((r :: rs).foldl applyRuleStep name).take 32 = _
    rw [List.foldl_cons, hstep]
  · unfold apply_rules
    simp [List.length_take]

/-- Claim C9 witness: a rule with a missing type key and a rule with an
unregistered type are both skipped on a concrete 40-character name, and
the result is truncated to 32 characters. -/
theorem C9_apply_rules_skips_unknown_witness :
    apply_rules "AAAAAAAAAAAAAAAAAAAAAAAAAAAAAAAAAAAAAAAA".data
        [⟨none, none⟩] =
      apply_rules "AAAAAAAAAAAAAAAAAAAAAAAAAAAAAAAAAAAAAAAA".data [] ∧
    apply_rules "AAAAAAAAAAAAAAAAAAAAAAAAAAAAAAAAAAAAAAAA".data [] =
      ("AAAAAAAAAAAAAAAAAAAAAAAAAAAAAAAAAAAAAAAA".data).take 32 ∧
    (apply_rules "AAAAAAAAAAAAAAAAAAAAAAAAAAAAAAAAAAAAAAAA".data
        [⟨none, none⟩]).length ≤ 32 :=
  C9_apply_rules_skips_unknown "AAAAAAAAAAAAAAAAAAAAAAAAAAAAAAAAAAAAAAAA".data
    ⟨none, none⟩ [] rfl

/-! ## Claim C3 (corrected: restore targets the display name, not None) -/

/-- Claim C3, counterexample: in a guild with no Included/Custom/Excluded
rules, member "Alice" (no nickname set) joins channel 7 and later leaves
with restore-on-leave enabled.  The leave event issues a restore command
carrying the display name "Alice" — not the claimed `None` (unset). -/
theorem C3_counterexample :
    (on_voice_state_update ⟨⟨true, true, none⟩, [], [], [], []⟩ ⟨0, 99, 10⟩ 0
        ⟨2, 1, none, "Alice".data, 1, []⟩ (some 7) none
        (on_voice_state_update ⟨⟨true, true, none⟩, [], [], [], []⟩ ⟨0, 99, 10⟩ 0
          ⟨2, 1, none, "Alice".data, 1, []⟩ none (some 7) []).2).1 =
      [Command.restoreNick (some "Alice".data)] ∧
    (on_voice_state_update ⟨⟨true, true, none⟩, [], [], [], []⟩ ⟨0, 99, 10⟩ 0
        ⟨2, 1, none, "Alice".data, 1, []⟩ (some 7) none
        (on_voice_state_update ⟨⟨true, true, none⟩, [], [], [], []⟩ ⟨0, 99, 10⟩ 0
          ⟨2, 1, none, "Alice".data, 1, []⟩ none (some 7) []).2).1 ≠
      [Command.restoreNick none] := by
  constructor <;> decide

/-- Claim C3 as amended: in a guild with no Included/Custom/Excluded rules
and no custom pool, an eligible member with no nickname set who joins a
voice channel is assigned a name from the default pool, and on leaving
voice (restore-on-leave enabled) a restore command carrying their original
display name (a string, not the unset `None`) is issued. -/
theorem C3_default_pool_and_restore (cfg : GuildCfg) (env : Env)
    (rnd rnd2 : Nat) (m : Member) (c : Nat)
    (hinc : cfg.included_channels = []) (hcus : cfg.custom_channels = [])
    (_hexc : cfg.excluded_channels = []) (hpool : cfg.nickname_pool = [])
    (hen : cfg.settings.enabled = true)
    (hrl : cfg.settings.restore_on_leave = true)
    (hnick : m.nick = none)
    (hcr : can_rename_member env m = true)
    (him : has_immunity cfg.settings m = false) :
    (on_voice_state_update cfg env rnd m none (some c) []).1 =
      [Command.rename (DEFAULT_NICKNAMES.getD
        (rnd % DEFAULT_NICKNAMES.length) [])] ∧
    DEFAULT_NICKNAMES.getD (rnd % DEFAULT_NICKNAMES.length) [] ∈
      DEFAULT_NICKNAMES ∧
    (on_voice_state_update cfg env rnd2 m (some c) none
        (on_voice_state_update cfg env rnd m none (some c) []).2).1 =
      [Command.restoreNick (some m.display_name)] := by
  have hrules : get_custom_channel_rules cfg c = none := by
    unfold get_custom_channel_rules
    rw [hcus]
    rfl
  have hal : is_channel_allowed cfg c = true := by
    unfold is_channel_allowed is_custom_channel
    rw [hinc, hcus]
    rfl
  have hpools : get_guild_nicknames cfg = DEFAULT_NICKNAMES := by
    unfold get_guild_nicknames
    rw [hpool]
    rfl
  have hjoin := handler_join_random cfg env rnd m c [] hen hal hcr him hrules
  refine ⟨?_, getD_mod_mem _ default_nicknames_ne_nil _, ?_⟩
  · rw [hjoin, hpools]
  · have hst : (on_voice_state_update cfg env rnd m none (some c) []).2 =
        [(m.guild_id, [(m.id, ⟨m.nick, m.display_name⟩)])] := by
      rw [hjoin]
      exact store_on_empty m.guild_id m.id m.nick m.display_name
    rw [hst, handler_left_restores cfg env rnd2 m c _ hen (by rw [hrl]; simp),
      hnick, restore_after_single m ⟨none, m.display_name⟩]

/-- Claim C3 witness: the amended statement at the concrete scenario of the
counterexample (member "Alice", channel 7). -/
theorem C3_default_pool_and_restore_witness :
    (on_voice_state_update ⟨⟨true, true, none⟩, [], [], [], []⟩ ⟨0, 99, 10⟩ 0
        ⟨2, 1, none, "Alice".data, 1, []⟩ none (some 7) []).1 =
      [Command.rename (DEFAULT_NICKNAMES.getD
        (0 % DEFAULT_NICKNAMES.length) [])] ∧
    DEFAULT_NICKNAMES.getD (0 % DEFAULT_NICKNAMES.length) [] ∈
      DEFAULT_NICKNAMES ∧
    (on_voice_state_update ⟨⟨true, true, none⟩, [], [], [], []⟩ ⟨0, 99, 10⟩ 0
        ⟨2, 1, none, "Alice".data, 1, []⟩ (some 7) none
        (on_voice_state_update ⟨⟨true, true, none⟩, [], [], [], []⟩ ⟨0, 99, 10⟩ 0
          ⟨2, 1, none, "Alice".data, 1, []⟩ none (some 7) []).2).1 =
      [Command.restoreNick (some ("Alice".data))] :=
  C3_default_pool_and_restore ⟨⟨true, true, none⟩, [], [], [], []⟩ ⟨0, 99, 10⟩
    0 0 ⟨2, 1, none, "Alice".data, 1, []⟩ 7 rfl rfl rfl rfl rfl rfl rfl rfl rfl

/-! ## Claim C4 (snapshotting is idempotent) -/

/-- Claim C4: if a joined-voice event for a member stores a snapshot (no
prior snapshot existed and all guards passed), then after any second
joined-voice event for the same member — any destination channel, any
configuration, any changed member attributes — the store still holds
exactly the nickname and display name captured at the first event. -/
theorem C4_snapshot_idempotent (cfg cfg2 : GuildCfg) (env env2 : Env)
    (rnd1 rnd2 : Nat) (m m2 : Member) (c1 c2 : Nat) (st : Store)
    (hg2 : m2.guild_id = m.guild_id) (hi2 : m2.id = m.id)
    (hen : cfg.settings.enabled = true)
    (hal : is_channel_allowed cfg c1 = true)
    (hcr : can_rename_member env m = true)
    (him : has_immunity cfg.settings m = false)
    (h0 : assocGet m.id ((assocGet m.guild_id st).getD []) = none) :
    assocGet m.id ((assocGet m.guild_id
      ((on_voice_state_update cfg2 env2 rnd2 m2 none (some c2)
        ((on_voice_state_update cfg env rnd1 m none (some c1) st).2)).2)).getD [])
      = some ⟨m.nick, m.display_name⟩ := by
  have hst1 : (on_voice_state_update cfg env rnd1 m none (some c1) st).2 =
      store_original_nickname m.guild_id m.id m.nick m.display_name st :=
    handler_join_store cfg env rnd1 m c1 st hen hal hcr him
  have h1 : assocGet m.id ((assocGet m.guild_id
      ((on_voice_state_update cfg env rnd1 m none (some c1) st).2)).getD []) =
      some ⟨m.nick, m.display_name⟩ := by
    rw [hst1]
    exact store_original_nickname_of_absent h0
  by_cases hen2 : cfg2.settings.enabled
  case neg =>
    rw [handler_join_blocked cfg2 env2 rnd2 m2 c2 _ (Or.inl (by simpa using hen2))]
    exact h1
  case pos =>
  by_cases hal2 : is_channel_allowed cfg2 c2
  case neg =>
    rw [handler_join_blocked cfg2 env2 rnd2 m2 c2 _
      (Or.inr (Or.inl (by simpa using hal2)))]
    exact h1
  case pos =>
  by_cases hcr2 : can_rename_member env2 m2
  case neg =>
    rw [handler_join_blocked cfg2 env2 rnd2 m2 c2 _
      (Or.inr (Or.inr (Or.inl (by simpa using hcr2))))]
    exact h1
  case pos =>
  by_cases him2 : has_immunity cfg2.settings m2
  case pos =>
    rw [handler_join_blocked cfg2 env2 rnd2 m2 c2 _
      (Or.inr (Or.inr (Or.inr him2)))]
    exact h1
  case neg =>
  rw [handler_join_store cfg2 env2 rnd2 m2 c2 _ hen2 hal2 hcr2
    (by simpa using him2), hg2, hi2,
    store_original_nickname_of_present (by rw [h1]; rfl)]
  exact h1

/-- Claim C4 witness: two consecutive joins of member 2 (guild 1), the
second with a different nickname and display name; the store keeps the
first capture. -/
theorem C4_snapshot_idempotent_witness :
    assocGet 2 ((assocGet 1
      ((on_voice_state_update ⟨⟨true, true, none⟩, [], [], [], []⟩ ⟨0, 99, 10⟩ 1
        ⟨2, 1, some "Chaos".data, "Chaos".data, 1, []⟩ none (some 8)
        ((on_voice_state_update ⟨⟨true, true, none⟩, [], [], [], []⟩ ⟨0, 99, 10⟩ 0
          ⟨2, 1, none, "Alice".data, 1, []⟩ none (some 7) []).2)).2)).getD [])
      = some ⟨none, "Alice".data⟩ :=
  C4_snapshot_idempotent ⟨⟨true, true, none⟩, [], [], [], []⟩
    ⟨⟨true, true, none⟩, [], [], [], []⟩ ⟨0, 99, 10⟩ ⟨0, 99, 10⟩ 0 1
    ⟨2, 1, none, "Alice".data, 1, []⟩
    ⟨2, 1, some "Chaos".data, "Chaos".data, 1, []⟩ 7 8 []
    rfl rfl rfl rfl rfl rfl rfl

/-! ## Claim C5 (assigned names: pool membership and length bound) -/

/-- Claim C5: provided every configured pool entry respects the platform's
32-character limit (the database schema constraint `String(32)`), every
name the handler assigns is at most 32 characters; and on a rule-less
event (destination without custom rules) the assigned name is an element
of the guild's pool, or of the default pool when the guild pool is empty
(`get_guild_nicknames`). -/
theorem C5_assigned_names (cfg : GuildCfg) (env : Env) (rnd : Nat)
    (m : Member) (before after : Option Nat) (st : Store) (name : Str)
    (hpool : ∀ n ∈ cfg.nickname_pool, n.length ≤ 32)
    (hmem : Command.rename name ∈
      (on_voice_state_update cfg env rnd m before after st).1) :
    name.length ≤ 32 ∧
    (∀ ac, after = some ac → get_custom_channel_rules cfg ac = none →
      name ∈ get_guild_nicknames cfg) := by
  have hpool32 : ∀ n ∈ get_guild_nicknames cfg, n.length ≤ 32 := by
    unfold get_guild_nicknames
    by_cases hp : cfg.nickname_pool.isEmpty
    · simpa [hp] using default_nicknames_short
    · simpa [hp] using hpool
  have hne : get_guild_nicknames cfg ≠ [] := by
    unfold get_guild_nicknames
    by_cases hp : cfg.nickname_pool.isEmpty
    · simpa [hp] using default_nicknames_ne_nil
    · rw [if_neg hp]
      intro hq
      exact hp (by rw [hq]; rfl)
  obtain ⟨ac, hac, _, _, _, _, hshape⟩ :=
    rename_mem_inv cfg env rnd m before after st name hmem
  rcases hshape with ⟨rules, hrules, orig, hname⟩ | ⟨hrules, hname⟩
  · constructor
    · rw [hname]
      unfold apply_rules
      simp [List.length_take]
    · intro ac2 hac2 hnone
      rw [hac] at hac2
      injection hac2 with hacs
      rw [← hacs] at hnone
      rw [hrules] at hnone
      exact absurd hnone (by simp)
  · have hmemq : name ∈ get_guild_nicknames cfg := by
      rw [hname]
      exact getD_mod_mem _ hne _
    exact ⟨hpool32 name hmemq, fun _ _ _ => hmemq⟩

/-- Claim C5 witness: the join of the C3 scenario (empty guild pool, so the
default pool is used) — the assigned name is in the pool and short. -/
theorem C5_assigned_names_witness :
    ((DEFAULT_NICKNAMES.getD (0 % DEFAULT_NICKNAMES.length) []).length ≤ 32 ∧
    (∀ ac, (some 7 : Option Nat) = some ac →
      get_custom_channel_rules ⟨⟨true, true, none⟩, [], [], [], []⟩ ac = none →
      DEFAULT_NICKNAMES.getD (0 % DEFAULT_NICKNAMES.length) [] ∈
        get_guild_nicknames ⟨⟨true, true, none⟩, [], [], [], []⟩)) :=
  C5_assigned_names ⟨⟨true, true, none⟩, [], [], [], []⟩ ⟨0, 99, 10⟩ 0
    ⟨2, 1, none, "Alice".data, 1, []⟩ none (some 7) []
    (DEFAULT_NICKNAMES.getD (0 % DEFAULT_NICKNAMES.length) [])
    (by intro n hn; exact absurd hn (by simp))
    (by decide)

/-! ## Claim C7 (owner / outranked members are never renamed) -/

/-- Claim C7: on every voice-state event, if the member is the guild owner
or the bot's top role is not strictly above the member's, no rename
command is ever issued to the mutator for that member. -/
theorem C7_no_rename_for_protected (cfg : GuildCfg) (env : Env) (rnd : Nat)
    (m : Member) (before after : Option Nat) (st : Store)
    (h : m.id = env.owner_id ∨ env.bot_top_role ≤ m.top_role) :
    ∀ name, Command.rename name ∉
      (on_voice_state_update cfg env rnd m before after st).1 := by
  have hcr : can_rename_member env m = false := by
    unfold can_rename_member
    rcases h with h | h
    · by_cases hb : m.id = env.bot_user_id <;> simp [hb, h]
    · by_cases hb : m.id = env.bot_user_id
      · simp [hb]
      · by_cases ho : m.id = env.owner_id <;> simp [hb, ho, h]
  intro name hmem
  obtain ⟨_, _, _, _, hcr2, _, _⟩ :=
    rename_mem_inv cfg env rnd m before after st name hmem
  rw [hcr] at hcr2
  exact absurd hcr2 (by simp)

/-- Claim C7 witness: the guild owner (id 99) joining channel 7 triggers no
commands at all, in particular no rename. -/
theorem C7_no_rename_for_protected_witness :
    (99 = 99 ∨ (10 : Nat) ≤ 1) ∧
    ∀ name, Command.rename name ∉
      (on_voice_state_update ⟨⟨true, true, none⟩, [], [], [], []⟩ ⟨0, 99, 10⟩ 0
        ⟨99, 1, none, "Owner".data, 1, []⟩ none (some 7) []).1 :=
  ⟨Or.inl rfl,
    C7_no_rename_for_protected ⟨⟨true, true, none⟩, [], [], [], []⟩ ⟨0, 99, 10⟩ 0
      ⟨99, 1, none, "Owner".data, 1, []⟩ none (some 7) [] (Or.inl rfl)⟩

/-! ## Claim C10 (channel moves leave the session store unchanged) -/

/-- Claim C10: a changed-channel event whose previous channel has no
Custom rule and whose destination is in scope leaves the Identity Session
Store exactly as it was — no snapshot is created and none is consumed. -/
theorem C10_move_preserves_store (cfg : GuildCfg) (env : Env) (rnd : Nat)
    (m : Member) (bc ac : Nat) (st : Store)
    (hne : bc ≠ ac)
    (hcu : is_custom_channel cfg bc = false)
    (hal : is_channel_allowed cfg ac = true) :
    (on_voice_state_update cfg env rnd m (some bc) (some ac) st).2 = st := by
  unfold on_voice_state_update
  by_cases hen : cfg.settings.enabled
  · by_cases hcr : can_rename_member env m
    · by_cases him : has_immunity cfg.settings m
      · simp [hen, hcu, hal, hcr, him, hne, user_left_voice,
          user_joined_voice, user_changed_channel]
      · cases hrules : get_custom_channel_rules cfg ac
        · simp [hen, hcu, hal, hcr, him, hne, hrules, user_left_voice,
            user_joined_voice, user_changed_channel]
        · simp [hen, hcu, hal, hcr, him, hne, hrules, user_left_voice,
            user_joined_voice, user_changed_channel]
    · simp [hen, hcu, hal, hcr, hne, user_left_voice, user_joined_voice,
        user_changed_channel]
  · simp [hen]

/-- Claim C10 witness: member 2 moves from channel 7 to channel 8 in a
rule-less guild while holding a stored snapshot; the store is unchanged. -/
theorem C10_move_preserves_store_witness :
    (on_voice_state_update ⟨⟨true, true, none⟩, [], [], [], []⟩ ⟨0, 99, 10⟩ 0
      ⟨2, 1, none, "Alice".data, 1, []⟩ (some 7) (some 8)
      [(1, [(2, ⟨none, "Alice".data⟩)])]).2 =
      [(1, [(2, ⟨none, "Alice".data⟩)])] :=
  C10_move_preserves_store ⟨⟨true, true, none⟩, [], [], [], []⟩ ⟨0, 99, 10⟩ 0
    ⟨2, 1, none, "Alice".data, 1, []⟩ 7 8 [(1, [(2, ⟨none, "Alice".data⟩)])]
    (by decide) rfl rfl
